import Mathlib

/-!
# Boost.Asio integration of D-Bus++

A model of `src/boost-asio-integration.cpp`: the timeout proxy `Boost::BusTimeout`,
the watch proxy `Boost::BusWatch` and the dispatcher `Boost::BusDispatcher`.

Conventions of the embedding.

* A proxy is a record of its nullable reactor handle together with the bookkeeping of the
  reactor it talks to: how many handles were created and deleted, which cancelled waits still
  owe their `operation_aborted` completion, and which calls went out to the bus library.
* The bus library owns the request (`Timeout::enabled()`, `Timeout::interval()`,
  `Watch::enabled()`, `Watch::flags()`, `Watch::descriptor()`); every operation that reads the
  request receives the value the request has at that moment.
* `Timeout::handle()` and `Watch::handle(flags)` run bus library code, which may call back
  into the proxy before it returns. That behaviour is an input of the completion handler:
  the list of calls the library makes on the proxy while it handles the event.
* Dereferencing a NULL handle is undefined behaviour; an operation that does so has no
  result (`none`).
* A C `int` holding watch flags is the natural number of its 32-bit pattern.
-/

namespace DBus

/-! ## Outcomes of asynchronous operations -/

/-- Outcome of an asynchronous wait, a `boost::system::error_code`. -/
inductive ErrorCode where
  | success
  | operation_aborted
  | failure (code : Nat)
  deriving DecidableEq, Repr

/-- The conversion to `bool` used by `if (ec)`: true for every outcome but success. -/
def ErrorCode.failed : ErrorCode → Bool
  | .success => false
  | .operation_aborted => true
  | .failure _ => true

/-! ## Flags of `dbus/dbus.h` -/

/-- The value `1 << 0` of `DBUS_WATCH_READABLE` in `dbus/dbus.h`. -/
def DBUS_WATCH_READABLE : Nat := 1

/-- The value `1 << 1` of `DBUS_WATCH_WRITABLE` in `dbus/dbus.h`. -/
def DBUS_WATCH_WRITABLE : Nat := 2

/-- The value `1 << 2` of `DBUS_WATCH_ERROR` in `dbus/dbus.h`. -/
def DBUS_WATCH_ERROR : Nat := 4

/-- The operator `~` on a 32-bit `int`, on bit patterns. -/
def bitNot (x : Nat) : Nat := (2 ^ 32 - 1 - x) % 2 ^ 32

/-! ## Boost::BusTimeout -/

/-- The request of the bus library behind a timeout proxy: what `Timeout::enabled()` and
`Timeout::interval()` return. -/
structure TimeoutRequest where
  enabled : Bool
  interval : Int
  deriving DecidableEq, Repr

/-- A `boost::asio::deadline_timer`: the delay it was last set to, in milliseconds, and the
number of waits armed on it that are neither completed nor cancelled. -/
structure DeadlineTimer where
  expiry : Int
  waits : Nat
  deriving DecidableEq, Repr

/-- The proxy `Boost::BusTimeout` with the bookkeeping of its reactor. -/
structure BusTimeout where
  /-- The member `_timer`; `none` is NULL. -/
  _timer : Option DeadlineTimer
  /-- Timers created with `new` so far. -/
  created : Nat
  /-- Timers released with `delete` so far. -/
  deleted : Nat
  /-- Cancelled waits whose `operation_aborted` completion is still to be delivered. -/
  aborted : Nat
  /-- Calls of `Timeout::handle()` so far. -/
  handled : Nat
  deriving DecidableEq, Repr

/-- Number of waits of the proxy that are armed, that is, submitted and not cancelled. -/
def BusTimeout.armed (s : BusTimeout) : Nat :=
  match s._timer with
  | none => 0
  | some t => t.waits

/-- The method `deadline_timer::async_wait`: one more wait is armed. -/
def DeadlineTimer.async_wait (t : DeadlineTimer) : DeadlineTimer :=
  { t with waits := t.waits + 1 }

/-- The method `deadline_timer::expires_from_now(d)`: sets the delay; waits pending on the
timer are cancelled, their number is the second component. -/
def DeadlineTimer.expires_from_now (d : Int) (t : DeadlineTimer) : DeadlineTimer × Nat :=
  ({ expiry := d, waits := 0 }, t.waits)

/-- The method `BusTimeout::disable`, lines 69-77. -/
def BusTimeout.disable (s : BusTimeout) : BusTimeout :=
  match s._timer with
  | none => s
  | some t =>
    { s with
      _timer := none
      aborted := s.aborted + t.waits
      deleted := s.deleted + 1 }

/-- The method `BusTimeout::enable`, lines 60-67. -/
def BusTimeout.enable (req : TimeoutRequest) (s : BusTimeout) : BusTimeout :=
  let s1 := if s._timer.isSome then s.disable else s
  let t : DeadlineTimer := { expiry := req.interval, waits := 0 }
  { s1 with
    _timer := some t.async_wait
    created := s1.created + 1 }

/-- The method `BusTimeout::toggle`, lines 50-58. -/
def BusTimeout.toggle (req : TimeoutRequest) (s : BusTimeout) : BusTimeout :=
  if req.enabled then s.enable req else s.disable

/-- The constructor of `BusTimeout`, lines 38-43. -/
def BusTimeout.construct (req : TimeoutRequest) : BusTimeout :=
  let s : BusTimeout :=
    { _timer := none, created := 0, deleted := 0, aborted := 0, handled := 0 }
  if req.enabled then s.enable req else s

/-- A call of the bus library on a timeout proxy, with the request as it is at the call. -/
inductive TimeoutCall where
  | toggle (req : TimeoutRequest)
  | enable (req : TimeoutRequest)
  | disable
  deriving DecidableEq, Repr

/-- Execution of one call on the proxy. -/
def BusTimeout.call (s : BusTimeout) : TimeoutCall → BusTimeout
  | .toggle req => s.toggle req
  | .enable req => s.enable req
  | .disable => s.disable

/-- The call `Timeout::handle()`: the bus library is entered once and makes the calls `h`
on the proxy before it returns. -/
def Timeout.handle (h : List TimeoutCall) (s : BusTimeout) : BusTimeout :=
  h.foldl BusTimeout.call { s with handled := s.handled + 1 }

/-- The method `BusTimeout::callback`, lines 79-89. `h` is what the bus library does inside
`Timeout::handle()`, `req` is the request as it is when `handle` has returned. The result is
`none` when `_timer` is NULL at line 87. -/
def BusTimeout.callback (ec : ErrorCode) (h : List TimeoutCall) (req : TimeoutRequest)
    (s : BusTimeout) : Option BusTimeout :=
  if ec = ErrorCode.operation_aborted then
    some s
  else
    let s1 := Timeout.handle h s
    match s1._timer with
    | none => none
    | some t =>
      let r := t.expires_from_now req.interval
      some { s1 with
        _timer := some r.1.async_wait
        aborted := s1.aborted + r.2 }

/-- The reactor retires the wait whose completion it is about to deliver: a cancelled one for
the outcome `operation_aborted`, an armed one of the current timer otherwise. -/
def BusTimeout.retire (ec : ErrorCode) (s : BusTimeout) : BusTimeout :=
  if ec = ErrorCode.operation_aborted then
    { s with aborted := s.aborted - 1 }
  else
    match s._timer with
    | none => s
    | some t => { s with _timer := some { t with waits := t.waits - 1 } }

/-- An event in the life of a timeout proxy: a call from the bus library, or a completion
delivered by the reactor. -/
inductive TimeoutOp where
  | call (c : TimeoutCall)
  | complete (ec : ErrorCode) (h : List TimeoutCall) (req : TimeoutRequest)
  deriving DecidableEq, Repr

/-- One event applied to the proxy. -/
def BusTimeout.step (s : BusTimeout) : TimeoutOp → Option BusTimeout
  | .call c => some (s.call c)
  | .complete ec h req => (s.retire ec).callback ec h req

/-- A sequence of events applied to the proxy, from left to right. -/
def BusTimeout.run : List TimeoutOp → BusTimeout → Option BusTimeout
  | [], s => some s
  | op :: ops, s =>
    match s.step op with
    | none => none
    | some s1 => BusTimeout.run ops s1

/-! ## Boost::BusWatch -/

/-- The request of the bus library behind a watch proxy: what `Watch::enabled()`,
`Watch::flags()` and `Watch::descriptor()` return. -/
structure WatchRequest where
  enabled : Bool
  flags : Nat
  descriptor : Int
  deriving DecidableEq, Repr

/-- The two kinds of readiness wait: `async_read_some` and `async_write_some`. -/
inductive Direction where
  | read
  | write
  deriving DecidableEq, Repr

/-- An outstanding wait: its direction and the `flag` argument bound into its handler. -/
structure Wait where
  dir : Direction
  flag : Nat
  deriving DecidableEq, Repr

/-- A `boost::asio::posix::stream_descriptor`: the descriptor it was opened on and the waits
that are outstanding on it, oldest first. -/
structure StreamDescriptor where
  fd : Int
  waits : List Wait
  deriving DecidableEq, Repr

/-- The proxy `Boost::BusWatch` with the bookkeeping of its reactor and dispatcher. -/
structure BusWatch where
  /-- The member `_wch`; `none` is NULL. -/
  _wch : Option StreamDescriptor
  /-- Registrations created with `new` so far. -/
  created : Nat
  /-- Registrations released with `delete` so far. -/
  deleted : Nat
  /-- Cancelled waits whose `operation_aborted` completion is still to be delivered. -/
  aborted : List Wait
  /-- Arguments of the calls of `Watch::handle` so far, oldest first. -/
  handled : List Nat
  /-- Calls of `has_something_to_dispatch` on the dispatcher so far. -/
  polled : Nat
  /-- Calls of `dispatch_pending` on the dispatcher so far. -/
  dispatched : Nat
  deriving DecidableEq, Repr

/-- The method `async_read_some(null_buffers(), handler bound to flag)`. -/
def StreamDescriptor.async_read_some (flag : Nat) (d : StreamDescriptor) : StreamDescriptor :=
  { d with waits := d.waits ++ [{ dir := Direction.read, flag := flag }] }

/-- The method `async_write_some(null_buffers(), handler bound to flag)`. -/
def StreamDescriptor.async_write_some (flag : Nat) (d : StreamDescriptor) : StreamDescriptor :=
  { d with waits := d.waits ++ [{ dir := Direction.write, flag := flag }] }

/-- The method `BusWatch::disable`, lines 127-135. -/
def BusWatch.disable (s : BusWatch) : BusWatch :=
  match s._wch with
  | none => s
  | some d =>
    { s with
      _wch := none
      aborted := s.aborted ++ d.waits
      deleted := s.deleted + 1 }

/-- The method `BusWatch::enable`, lines 113-125. The registration is opened on a duplicate
of the descriptor of the request. -/
def BusWatch.enable (req : WatchRequest) (s : BusWatch) : BusWatch :=
  let s1 := if s._wch.isSome then s.disable else s
  let d0 : StreamDescriptor := { fd := req.descriptor, waits := [] }
  let d1 :=
    if req.flags &&& (DBUS_WATCH_READABLE ||| DBUS_WATCH_ERROR) ≠ 0 then
      d0.async_read_some (req.flags &&& (DBUS_WATCH_READABLE ||| DBUS_WATCH_ERROR))
    else d0
  let d2 :=
    if req.flags &&& DBUS_WATCH_WRITABLE ≠ 0 then
      d1.async_write_some DBUS_WATCH_WRITABLE
    else d1
  { s1 with
    _wch := some d2
    created := s1.created + 1 }

/-- The method `BusWatch::toggle`, lines 103-111. -/
def BusWatch.toggle (req : WatchRequest) (s : BusWatch) : BusWatch :=
  if req.enabled then s.enable req else s.disable

/-- The constructor of `BusWatch`, lines 91-96. -/
def BusWatch.construct (req : WatchRequest) : BusWatch :=
  let s : BusWatch :=
    { _wch := none, created := 0, deleted := 0, aborted := [], handled := [],
      polled := 0, dispatched := 0 }
  if req.enabled then s.enable req else s

/-- A call of the bus library on a watch proxy, with the request as it is at the call. -/
inductive WatchCall where
  | toggle (req : WatchRequest)
  | enable (req : WatchRequest)
  | disable
  deriving DecidableEq, Repr

/-- Execution of one call on the proxy. -/
def BusWatch.call (s : BusWatch) : WatchCall → BusWatch
  | .toggle req => s.toggle req
  | .enable req => s.enable req
  | .disable => s.disable

/-- The call `Watch::handle(flags)`: the bus library is entered once with `flags` and makes
the calls `h` on the proxy before it returns. -/
def Watch.handle (flags : Nat) (h : List WatchCall) (s : BusWatch) : BusWatch :=
  h.foldl BusWatch.call { s with handled := s.handled ++ [flags] }

/-- Lines 139-149 of `BusWatch::callback` for an outcome that is not a cancellation: which
call of `Watch::handle`, if any, is made. -/
def BusWatch.notify (ec : ErrorCode) (flag : Nat) (h : List WatchCall) (s : BusWatch) :
    BusWatch :=
  if ec.failed then
    if flag &&& DBUS_WATCH_ERROR ≠ 0 then Watch.handle DBUS_WATCH_ERROR h s else s
  else
    Watch.handle (flag &&& bitNot DBUS_WATCH_ERROR) h s

/-- A member call `_wch->f(...)`: `none` when `_wch` is NULL. -/
def BusWatch.deref (f : StreamDescriptor → StreamDescriptor) (s : BusWatch) :
    Option BusWatch :=
  match s._wch with
  | none => none
  | some d => some { s with _wch := some (f d) }

/-- Lines 151-158 of `BusWatch::callback`: the waits named by `flag` are submitted again,
each bound to the same `flag`. -/
def BusWatch.rearm (flag : Nat) (s : BusWatch) : Option BusWatch :=
  let r1 :=
    if flag &&& (DBUS_WATCH_READABLE ||| DBUS_WATCH_ERROR) ≠ 0 then
      s.deref (StreamDescriptor.async_read_some flag)
    else some s
  match r1 with
  | none => none
  | some s1 =>
    if flag &&& DBUS_WATCH_WRITABLE ≠ 0 then
      s1.deref (StreamDescriptor.async_write_some flag)
    else some s1

/-- Lines 160-161 of `BusWatch::callback`: the dispatcher is asked whether it has something
to dispatch, the answer is `pending`, and drains if so. -/
def BusWatch.drain (pending : Bool) (s : BusWatch) : BusWatch :=
  let s1 := { s with polled := s.polled + 1 }
  if pending then { s1 with dispatched := s1.dispatched + 1 } else s1

/-- The method `BusWatch::callback`, lines 137-162. `h` is what the bus library does inside
`Watch::handle`, `pending` is the answer of `has_something_to_dispatch`. The result is `none`
when `_wch` is NULL at line 153 or 157. -/
def BusWatch.callback (ec : ErrorCode) (flag : Nat) (h : List WatchCall) (pending : Bool)
    (s : BusWatch) : Option BusWatch :=
  if ec.failed ∧ ec = ErrorCode.operation_aborted then
    some s
  else
    match (s.notify ec flag h).rearm flag with
    | none => none
    | some s2 => some (s2.drain pending)

/-- The reactor retires the wait whose completion it delivers: the cancelled wait number `i`
for the outcome `operation_aborted`, the outstanding wait number `i` of the registration
otherwise. The result is the retired wait and the proxy without it; `none` when there is no
such wait. -/
def BusWatch.retire (ec : ErrorCode) (i : Nat) (s : BusWatch) : Option (Wait × BusWatch) :=
  if ec = ErrorCode.operation_aborted then
    match s.aborted[i]? with
    | none => none
    | some w => some (w, { s with aborted := s.aborted.eraseIdx i })
  else
    match s._wch with
    | none => none
    | some d =>
      match d.waits[i]? with
      | none => none
      | some w => some (w, { s with _wch := some { d with waits := d.waits.eraseIdx i } })

/-- An event in the life of a watch proxy: a call from the bus library, or the completion of
the wait number `i` delivered by the reactor. -/
inductive WatchOp where
  | call (c : WatchCall)
  | complete (ec : ErrorCode) (i : Nat) (h : List WatchCall) (pending : Bool)
  deriving DecidableEq, Repr

/-- One event applied to the proxy. A completion for a wait that does not exist is not
delivered. -/
def BusWatch.step (s : BusWatch) : WatchOp → Option BusWatch
  | .call c => some (s.call c)
  | .complete ec i h pending =>
    match s.retire ec i with
    | none => some s
    | some (w, s1) => s1.callback ec w.flag h pending

/-- A sequence of events applied to the proxy, from left to right. -/
def BusWatch.run : List WatchOp → BusWatch → Option BusWatch
  | [], s => some s
  | op :: ops, s =>
    match s.step op with
    | none => none
    | some s1 => BusWatch.run ops s1

/-- The request a call reads, if it reads one. -/
def WatchCall.request : WatchCall → Option WatchRequest
  | .toggle req => some req
  | .enable req => some req
  | .disable => none

/-- Every call of the list that reads the request sees the interest flags `f`. -/
def WatchCall.allFlags (f : Nat) (h : List WatchCall) : Prop :=
  ∀ c ∈ h, ∀ req, c.request = some req → req.flags = f

/-- The waits the interest flags `f` stand for, in the words of the specification: one
read-direction wait tagged with the readable and error part of `f` if that part is not empty,
and one write-direction wait tagged writable if `f` contains writable. -/
def expectedWaits (f : Nat) : List Wait :=
  (if f &&& (DBUS_WATCH_READABLE ||| DBUS_WATCH_ERROR) ≠ 0 then
    [{ dir := Direction.read, flag := f &&& (DBUS_WATCH_READABLE ||| DBUS_WATCH_ERROR) }]
  else []) ++
  (if f &&& DBUS_WATCH_WRITABLE ≠ 0 then
    [{ dir := Direction.write, flag := DBUS_WATCH_WRITABLE }]
  else [])

/-- The registration holds exactly the waits the interest flags `f` stand for. -/
def BusWatch.armedFor (f : Nat) (s : BusWatch) : Prop :=
  ∀ d, s._wch = some d → d.waits = expectedWaits f

/-- Every outstanding wait of the proxy is a read-direction wait tagged readable only. -/
def BusWatch.readOnly (s : BusWatch) : Prop :=
  ∀ d, s._wch = some d →
    ∀ w ∈ d.waits, w = { dir := Direction.read, flag := DBUS_WATCH_READABLE }

/-- The event is a completion that is not a cancellation, and the calls the bus library makes
while it handles it see the interest flags `f`. -/
def WatchOp.firing (f : Nat) : WatchOp → Prop
  | .call _ => False
  | .complete ec _ h _ => ec ≠ ErrorCode.operation_aborted ∧ WatchCall.allFlags f h

/-- A watch proxy with interest readable and error on descriptor 3, at the moment the
reactor has retired its read-direction wait and is about to deliver the completion. -/
def BusWatch.fired : BusWatch :=
  { _wch := some { fd := 3, waits := [] }, created := 1, deleted := 0, aborted := [],
    handled := [], polled := 0, dispatched := 0 }

/-! ## Boost::BusDispatcher -/

/-- The dispatcher `Boost::BusDispatcher`: the member `_ctx`, a pointer to the reactor;
`none` is NULL. -/
structure BusDispatcher where
  _ctx : Option Nat
  deriving DecidableEq, Repr

/-- How a call ended: it returned, or a `BOOST_ASSERT` failed. -/
inductive Outcome where
  | returned
  | assertion_failed
  deriving DecidableEq, Repr

/-- The constructor of `BusDispatcher`, lines 164-167. -/
def BusDispatcher.construct : BusDispatcher := { _ctx := none }

/-- The method `BusDispatcher::attach`, lines 174-180, with `BOOST_ASSERT` checked: a failed
assertion ends the call at that line, with the dispatcher as it is there. -/
def BusDispatcher.attach (ctx : Option Nat) (d : BusDispatcher) : Outcome × BusDispatcher :=
  if d._ctx ≠ none then (Outcome.assertion_failed, d)
  else if ctx = none then (Outcome.assertion_failed, d)
  else (Outcome.returned, { d with _ctx := ctx })

/-- A sequence of `attach` calls on one dispatcher, from left to right. -/
def BusDispatcher.attachAll (ctxs : List (Option Nat)) (d : BusDispatcher) : BusDispatcher :=
  ctxs.foldl (fun d ctx => (d.attach ctx).2) d

/-! ## Facts about the timeout proxy -/

theorem BusTimeout.disable_timer (s : BusTimeout) : s.disable._timer = none := by
  unfold BusTimeout.disable
  cases h : s._timer <;> simp [h]

theorem BusTimeout.enable_timer (req : TimeoutRequest) (s : BusTimeout) :
    (s.enable req)._timer = some { expiry := req.interval, waits := 1 } := by
  simp [BusTimeout.enable, DeadlineTimer.async_wait]

theorem BusTimeout.call_armed (s : BusTimeout) (c : TimeoutCall) : (s.call c).armed ≤ 1 := by
  cases c with
  | toggle req =>
    by_cases hreq : req.enabled = true
    · simp [BusTimeout.call, BusTimeout.toggle, hreq, BusTimeout.armed, BusTimeout.enable_timer]
    · simp [BusTimeout.call, BusTimeout.toggle, hreq, BusTimeout.armed,
        BusTimeout.disable_timer]
  | enable req => simp [BusTimeout.call, BusTimeout.armed, BusTimeout.enable_timer]
  | disable => simp [BusTimeout.call, BusTimeout.armed, BusTimeout.disable_timer]

theorem BusTimeout.callback_armed (ec : ErrorCode) (h : List TimeoutCall) (req : TimeoutRequest)
    (s s1 : BusTimeout) (hne : ec ≠ ErrorCode.operation_aborted)
    (hs : s.callback ec h req = some s1) : s1.armed = 1 := by
  unfold BusTimeout.callback at hs
  rw [if_neg hne] at hs
  cases ht : (Timeout.handle h s)._timer with
  | none => simp [ht] at hs
  | some t =>
    simp only [ht, Option.some.injEq] at hs
    subst hs
    simp [BusTimeout.armed, DeadlineTimer.async_wait, DeadlineTimer.expires_from_now]

theorem BusTimeout.step_armed (s s1 : BusTimeout) (op : TimeoutOp) (hinv : s.armed ≤ 1)
    (hs : s.step op = some s1) : s1.armed ≤ 1 := by
  cases op with
  | call c =>
    simp only [BusTimeout.step, Option.some.injEq] at hs
    subst hs
    exact BusTimeout.call_armed s c
  | complete ec h req =>
    simp only [BusTimeout.step] at hs
    by_cases hec : ec = ErrorCode.operation_aborted
    · subst hec
      simp only [BusTimeout.callback, if_true, Option.some.injEq] at hs
      subst hs
      simpa [BusTimeout.retire, BusTimeout.armed] using hinv
    · exact le_of_eq (BusTimeout.callback_armed ec h req _ s1 hec hs)

theorem BusTimeout.run_armed (ops : List TimeoutOp) (s s1 : BusTimeout) (hinv : s.armed ≤ 1)
    (hs : BusTimeout.run ops s = some s1) : s1.armed ≤ 1 := by
  induction ops generalizing s with
  | nil =>
    simp only [BusTimeout.run, Option.some.injEq] at hs
    subst hs
    exact hinv
  | cons op ops ih =>
    simp only [BusTimeout.run] at hs
    cases hstep : s.step op with
    | none => simp [hstep] at hs
    | some s2 =>
      simp only [hstep] at hs
      exact ih s2 (BusTimeout.step_armed s s2 op hinv hstep) hs

theorem BusTimeout.construct_armed (req : TimeoutRequest) :
    (BusTimeout.construct req).armed ≤ 1 := by
  unfold BusTimeout.construct
  by_cases hreq : req.enabled = true
  · simp [hreq, BusTimeout.armed, BusTimeout.enable_timer]
  · simp [hreq, BusTimeout.armed]

/-! ## Facts about the watch proxy -/

theorem BusWatch.disable_wch (s : BusWatch) : s.disable._wch = none := by
  unfold BusWatch.disable
  cases h : s._wch <;> simp [h]

theorem BusWatch.enable_wch (req : WatchRequest) (s : BusWatch) :
    (s.enable req)._wch = some { fd := req.descriptor, waits := expectedWaits req.flags } := by
  simp only [BusWatch.enable, expectedWaits, StreamDescriptor.async_read_some,
    StreamDescriptor.async_write_some]
  split_ifs <;> simp

theorem BusWatch.disable_handled (s : BusWatch) : s.disable.handled = s.handled := by
  unfold BusWatch.disable
  cases h : s._wch <;> simp [h]

theorem BusWatch.enable_handled (req : WatchRequest) (s : BusWatch) :
    (s.enable req).handled = s.handled := by
  simp only [BusWatch.enable]
  split_ifs <;> simp [BusWatch.disable_handled]

theorem BusWatch.call_handled (s : BusWatch) (c : WatchCall) :
    (s.call c).handled = s.handled := by
  cases c with
  | toggle req =>
    by_cases hreq : req.enabled = true
    · simp [BusWatch.call, BusWatch.toggle, hreq, BusWatch.enable_handled]
    · simp [BusWatch.call, BusWatch.toggle, hreq, BusWatch.disable_handled]
  | enable req => simp [BusWatch.call, BusWatch.enable_handled]
  | disable => simp [BusWatch.call, BusWatch.disable_handled]

theorem BusWatch.calls_handled (h : List WatchCall) (s : BusWatch) :
    (h.foldl BusWatch.call s).handled = s.handled := by
  induction h generalizing s with
  | nil => rfl
  | cons c h ih => rw [List.foldl_cons, ih, BusWatch.call_handled]

theorem Watch.handle_handled (flags : Nat) (h : List WatchCall) (s : BusWatch) :
    (Watch.handle flags h s).handled = s.handled ++ [flags] := by
  unfold Watch.handle
  rw [BusWatch.calls_handled]

theorem BusWatch.deref_some (f : StreamDescriptor → StreamDescriptor) (s s1 : BusWatch)
    (hs : s.deref f = some s1) :
    ∃ d, s._wch = some d ∧ s1 = { s with _wch := some (f d) } := by
  unfold BusWatch.deref at hs
  cases hd : s._wch with
  | none => simp [hd] at hs
  | some d =>
    simp only [hd, Option.some.injEq] at hs
    exact ⟨d, rfl, hs.symm⟩

theorem BusWatch.rearm_handled (flag : Nat) (s s1 : BusWatch) (hs : s.rearm flag = some s1) :
    s1.handled = s.handled := by
  unfold BusWatch.rearm at hs
  split_ifs at hs with h1 h2 h2
  · cases hr : s.deref (StreamDescriptor.async_read_some flag) with
    | none => simp [hr] at hs
    | some s2 =>
      simp only [hr] at hs
      obtain ⟨d, _, rfl⟩ := BusWatch.deref_some _ _ _ hr
      obtain ⟨d2, _, rfl⟩ := BusWatch.deref_some _ _ _ hs
      rfl
  · cases hr : s.deref (StreamDescriptor.async_read_some flag) with
    | none => simp [hr] at hs
    | some s2 =>
      simp only [hr, Option.some.injEq] at hs
      obtain ⟨d, _, rfl⟩ := BusWatch.deref_some _ _ _ hr
      rw [← hs]
  · obtain ⟨d, _, rfl⟩ := BusWatch.deref_some _ _ _ hs
    rfl
  · simp only [Option.some.injEq] at hs
    rw [← hs]

theorem BusWatch.drain_handled (pending : Bool) (s : BusWatch) :
    (s.drain pending).handled = s.handled := by
  cases pending <;> rfl

theorem BusWatch.drain_wch (pending : Bool) (s : BusWatch) :
    (s.drain pending)._wch = s._wch := by
  cases pending <;> rfl

theorem BusWatch.call_armedFor (f : Nat) (s : BusWatch) (c : WatchCall)
    (hc : ∀ req, c.request = some req → req.flags = f) : (s.call c).armedFor f := by
  intro d hd
  cases c with
  | toggle req =>
    have hf : req.flags = f := hc req rfl
    by_cases hreq : req.enabled = true
    · simp only [BusWatch.call, BusWatch.toggle, hreq, if_true, BusWatch.enable_wch,
        Option.some.injEq] at hd
      rw [← hd, hf]
    · simp [BusWatch.call, BusWatch.toggle, hreq, BusWatch.disable_wch] at hd
  | enable req =>
    have hf : req.flags = f := hc req rfl
    simp only [BusWatch.call, BusWatch.enable_wch, Option.some.injEq] at hd
    rw [← hd, hf]
  | disable => simp [BusWatch.call, BusWatch.disable_wch] at hd

theorem BusWatch.calls_armedFor (f : Nat) (h : List WatchCall) (s : BusWatch)
    (hs : s.armedFor f) (hh : WatchCall.allFlags f h) :
    (h.foldl BusWatch.call s).armedFor f := by
  induction h generalizing s with
  | nil => exact hs
  | cons c h ih =>
    rw [List.foldl_cons]
    apply ih
    · exact BusWatch.call_armedFor f s c (hh c (List.mem_cons_self c h))
    · intro c1 hc1
      exact hh c1 (List.mem_cons_of_mem c hc1)

theorem BusWatch.construct_armedFor (req : WatchRequest) :
    (BusWatch.construct req).armedFor req.flags := by
  intro d hd
  unfold BusWatch.construct at hd
  by_cases hreq : req.enabled = true
  · simp only [hreq, if_true, BusWatch.enable_wch, Option.some.injEq] at hd
    rw [← hd]
  · simp [hreq] at hd

theorem expectedWaits_length_le (f : Nat) : (expectedWaits f).length ≤ 2 := by
  unfold expectedWaits
  split_ifs <;> simp

theorem interest_split (f : Nat) (hf : f &&& 7 ≠ 0) :
    f &&& (DBUS_WATCH_READABLE ||| DBUS_WATCH_ERROR) ≠ 0 ∨ f &&& DBUS_WATCH_WRITABLE ≠ 0 := by
  by_contra hcon
  push_neg at hcon
  obtain ⟨h5, h2⟩ := hcon
  apply hf
  have h7 : (7 : Nat) = (DBUS_WATCH_READABLE ||| DBUS_WATCH_ERROR) ||| DBUS_WATCH_WRITABLE := by
    decide
  rw [h7, Nat.and_or_distrib_left, h5, h2]
  rfl

theorem expectedWaits_length_pos (f : Nat) (hf : f &&& 7 ≠ 0) :
    1 ≤ (expectedWaits f).length := by
  unfold expectedWaits
  rcases interest_split f hf with h | h
  · simp [h]
  · simp [h]

theorem expectedWaits_tagged (f : Nat) (w : Wait) (hw : w ∈ expectedWaits f) :
    (w.dir = Direction.read ∧
        w.flag = f &&& (DBUS_WATCH_READABLE ||| DBUS_WATCH_ERROR) ∧ w.flag ≠ 0) ∨
      (w.dir = Direction.write ∧ w.flag = DBUS_WATCH_WRITABLE ∧
        f &&& DBUS_WATCH_WRITABLE ≠ 0) := by
  unfold expectedWaits at hw
  rw [List.mem_append] at hw
  rcases hw with hw | hw
  · left
    split_ifs at hw with h
    · rw [List.mem_singleton] at hw
      subst hw
      exact ⟨rfl, rfl, h⟩
    · simp at hw
  · right
    split_ifs at hw with h
    · rw [List.mem_singleton] at hw
      subst hw
      exact ⟨rfl, rfl, h⟩
    · simp at hw

theorem expectedWaits_readable :
    expectedWaits DBUS_WATCH_READABLE =
      [{ dir := Direction.read, flag := DBUS_WATCH_READABLE }] := by
  decide

theorem BusWatch.readOnly_of_armedFor (s : BusWatch) (hs : s.armedFor DBUS_WATCH_READABLE) :
    s.readOnly := by
  intro d hd w hw
  rw [hs d hd, expectedWaits_readable, List.mem_singleton] at hw
  exact hw

theorem BusWatch.calls_readOnly (h : List WatchCall) (s : BusWatch) (hs : s.readOnly)
    (hh : WatchCall.allFlags DBUS_WATCH_READABLE h) : (h.foldl BusWatch.call s).readOnly := by
  induction h generalizing s with
  | nil => exact hs
  | cons c h ih =>
    rw [List.foldl_cons]
    apply ih
    · apply BusWatch.readOnly_of_armedFor
      exact BusWatch.call_armedFor _ s c (hh c (List.mem_cons_self c h))
    · intro c1 hc1
      exact hh c1 (List.mem_cons_of_mem c hc1)

theorem BusWatch.notify_readOnly (ec : ErrorCode) (flag : Nat) (h : List WatchCall)
    (s : BusWatch) (hs : s.readOnly) (hh : WatchCall.allFlags DBUS_WATCH_READABLE h) :
    (s.notify ec flag h).readOnly := by
  unfold BusWatch.notify Watch.handle
  split_ifs
  · exact BusWatch.calls_readOnly h _ hs hh
  · exact hs
  · exact BusWatch.calls_readOnly h _ hs hh

theorem BusWatch.rearm_readable (s : BusWatch) :
    s.rearm DBUS_WATCH_READABLE =
      s.deref (StreamDescriptor.async_read_some DBUS_WATCH_READABLE) := by
  have h1 : DBUS_WATCH_READABLE &&& (DBUS_WATCH_READABLE ||| DBUS_WATCH_ERROR) ≠ 0 := by decide
  have h2 : ¬ DBUS_WATCH_READABLE &&& DBUS_WATCH_WRITABLE ≠ 0 := by decide
  unfold BusWatch.rearm
  rw [if_pos h1]
  cases s.deref (StreamDescriptor.async_read_some DBUS_WATCH_READABLE) with
  | none => rfl
  | some s1 => exact if_neg h2

theorem BusWatch.rearm_readOnly (s s1 : BusWatch) (hs : s.readOnly)
    (hr : s.rearm DBUS_WATCH_READABLE = some s1) : s1.readOnly := by
  rw [BusWatch.rearm_readable] at hr
  obtain ⟨d, hd, rfl⟩ := BusWatch.deref_some _ _ _ hr
  intro d1 hd1 w hw
  simp only [Option.some.injEq] at hd1
  subst hd1
  simp only [StreamDescriptor.async_read_some, List.mem_append, List.mem_singleton] at hw
  rcases hw with hw | hw
  · exact hs d hd w hw
  · exact hw

theorem BusWatch.retire_readOnly (ec : ErrorCode) (i : Nat) (s s1 : BusWatch) (w : Wait)
    (hs : s.readOnly) (hec : ec ≠ ErrorCode.operation_aborted)
    (hr : s.retire ec i = some (w, s1)) :
    s1.readOnly ∧ w = { dir := Direction.read, flag := DBUS_WATCH_READABLE } := by
  unfold BusWatch.retire at hr
  rw [if_neg hec] at hr
  cases hd : s._wch with
  | none => simp [hd] at hr
  | some d =>
    simp only [hd] at hr
    cases hw : d.waits[i]? with
    | none => simp [hw] at hr
    | some w1 =>
      simp only [hw, Option.some.injEq, Prod.mk.injEq] at hr
      obtain ⟨rfl, rfl⟩ := hr
      constructor
      · intro d1 hd1 w hw1
        simp only [Option.some.injEq] at hd1
        subst hd1
        exact hs d hd w (List.mem_of_mem_eraseIdx hw1)
      · exact hs d hd w1 (List.getElem?_mem hw)

theorem BusWatch.step_readOnly (op : WatchOp) (s s1 : BusWatch) (hs : s.readOnly)
    (hop : op.firing DBUS_WATCH_READABLE) (hstep : s.step op = some s1) : s1.readOnly := by
  cases op with
  | call c => exact absurd hop (by simp [WatchOp.firing])
  | complete ec i h pending =>
    obtain ⟨hec, hh⟩ := hop
    simp only [BusWatch.step] at hstep
    cases hr : s.retire ec i with
    | none =>
      simp only [hr, Option.some.injEq] at hstep
      rw [← hstep]
      exact hs
    | some p =>
      obtain ⟨w, s2⟩ := p
      simp only [hr] at hstep
      obtain ⟨hs2, hw⟩ := BusWatch.retire_readOnly ec i s s2 w hs hec hr
      subst hw
      unfold BusWatch.callback at hstep
      have hna : ¬ (ec.failed = true ∧ ec = ErrorCode.operation_aborted) := fun hx => hec hx.2
      rw [if_neg hna] at hstep
      cases hre : (s2.notify ec DBUS_WATCH_READABLE h).rearm DBUS_WATCH_READABLE with
      | none => simp [hre] at hstep
      | some s3 =>
        simp only [hre, Option.some.injEq] at hstep
        have hs3 : s3.readOnly :=
          BusWatch.rearm_readOnly _ s3 (BusWatch.notify_readOnly ec _ h s2 hs2 hh) hre
        intro d hd
        rw [← hstep, BusWatch.drain_wch] at hd
        exact hs3 d hd

theorem BusWatch.run_readOnly (ops : List WatchOp) (s s1 : BusWatch) (hs : s.readOnly)
    (hops : ∀ op ∈ ops, op.firing DBUS_WATCH_READABLE) (hrun : BusWatch.run ops s = some s1) :
    s1.readOnly := by
  induction ops generalizing s with
  | nil =>
    simp only [BusWatch.run, Option.some.injEq] at hrun
    rw [← hrun]
    exact hs
  | cons op ops ih =>
    simp only [BusWatch.run] at hrun
    cases hstep : s.step op with
    | none => simp [hstep] at hrun
    | some s2 =>
      simp only [hstep] at hrun
      apply ih s2 _ _ hrun
      · exact BusWatch.step_readOnly op s s2 hs (hops op (List.mem_cons_self op ops)) hstep
      · intro op1 hop1
        exact hops op1 (List.mem_cons_of_mem op hop1)

theorem BusTimeout.disable_keeps_count (s : BusTimeout) : s.disable.handled = s.handled := by
  unfold BusTimeout.disable
  cases h : s._timer <;> simp [h]

theorem BusTimeout.enable_keeps_count (req : TimeoutRequest) (s : BusTimeout) :
    (s.enable req).handled = s.handled := by
  simp only [BusTimeout.enable]
  split_ifs <;> simp [BusTimeout.disable_keeps_count]

theorem BusTimeout.call_keeps_count (s : BusTimeout) (c : TimeoutCall) :
    (s.call c).handled = s.handled := by
  cases c with
  | toggle req =>
    by_cases hreq : req.enabled = true
    · simp [BusTimeout.call, BusTimeout.toggle, hreq, BusTimeout.enable_keeps_count]
    · simp [BusTimeout.call, BusTimeout.toggle, hreq, BusTimeout.disable_keeps_count]
  | enable req => simp [BusTimeout.call, BusTimeout.enable_keeps_count]
  | disable => simp [BusTimeout.call, BusTimeout.disable_keeps_count]

theorem BusTimeout.calls_keep_count (h : List TimeoutCall) (s : BusTimeout) :
    (h.foldl BusTimeout.call s).handled = s.handled := by
  induction h generalizing s with
  | nil => rfl
  | cons c h ih => rw [List.foldl_cons, ih, BusTimeout.call_keeps_count]

theorem Timeout.handle_counts_once (h : List TimeoutCall) (s : BusTimeout) :
    (Timeout.handle h s).handled = s.handled + 1 := by
  unfold Timeout.handle
  rw [BusTimeout.calls_keep_count]

theorem error_bit_in_read_interest (flag : Nat) (h : flag &&& DBUS_WATCH_ERROR ≠ 0) :
    flag &&& (DBUS_WATCH_READABLE ||| DBUS_WATCH_ERROR) ≠ 0 := by
  intro h5
  apply h
  have h4 : DBUS_WATCH_ERROR = (DBUS_WATCH_READABLE ||| DBUS_WATCH_ERROR) &&& DBUS_WATCH_ERROR := by
    decide
  rw [h4, ← Nat.land_assoc, h5, Nat.zero_and]

theorem bitNot_error : bitNot DBUS_WATCH_ERROR = 4294967291 := by
  decide

theorem clear_error_bit (t : Nat) (ht : t < 2 ^ 32) (i : Nat) :
    (t &&& bitNot DBUS_WATCH_ERROR).testBit i = (t.testBit i && decide (i ≠ 2)) := by
  rw [bitNot_error, Nat.testBit_and]
  by_cases hi : i < 32
  · interval_cases i <;> simp [Nat.testBit, Nat.shiftRight_eq_div_pow]
  · have hfalse : t.testBit i = false := by
      apply Nat.testBit_lt_two_pow
      calc t < 2 ^ 32 := ht
        _ ≤ 2 ^ i := Nat.pow_le_pow_right (by norm_num) (by omega)
    simp [hfalse]

theorem BusDispatcher.attachAll_keeps (ctxs : List (Option Nat)) (d : BusDispatcher) (c : Nat)
    (hd : d._ctx = some c) : (BusDispatcher.attachAll ctxs d)._ctx = some c := by
  induction ctxs generalizing d with
  | nil => exact hd
  | cons ctx ctxs ih =>
    unfold BusDispatcher.attachAll
    rw [List.foldl_cons]
    apply ih
    simp [BusDispatcher.attach, hd]

theorem BusDispatcher.attachAll_first (ctxs : List (Option Nat)) (d : BusDispatcher)
    (hd : d._ctx = none) :
    (BusDispatcher.attachAll ctxs d)._ctx = (ctxs.filterMap id).head? := by
  induction ctxs generalizing d with
  | nil => simpa [BusDispatcher.attachAll] using hd
  | cons ctx ctxs ih =>
    cases ctx with
    | none =>
      have hstep : (d.attach none).2 = d := by simp [BusDispatcher.attach, hd]
      have hrun : BusDispatcher.attachAll (none :: ctxs) d = BusDispatcher.attachAll ctxs d := by
        unfold BusDispatcher.attachAll
        rw [List.foldl_cons, hstep]
      rw [hrun, ih d hd]
      simp
    | some c =>
      have hrun : BusDispatcher.attachAll (some c :: ctxs) d =
          BusDispatcher.attachAll ctxs (d.attach (some c)).2 := by
        unfold BusDispatcher.attachAll
        rw [List.foldl_cons]
      rw [hrun, BusDispatcher.attachAll_keeps ctxs _ c (by simp [BusDispatcher.attach, hd])]
      simp

/-! ## The timeout proxy: at most one armed wait, cancellation, firing -/

/-- C1: from a freshly constructed timeout proxy, after every finite sequence of `enable`,
`disable` and `toggle` calls and delivered completions, whatever the request says at each step,
the proxy has at most one armed wait; and `enable` on an armed proxy cancels the waits of the
old timer, deletes it, and leaves one new timer carrying exactly one wait. -/
theorem timer_at_most_one_armed_wait :
    (∀ (req : TimeoutRequest) (ops : List TimeoutOp) (s : BusTimeout),
      BusTimeout.run ops (BusTimeout.construct req) = some s → s.armed ≤ 1) ∧
    (∀ (s : BusTimeout) (t : DeadlineTimer) (req : TimeoutRequest), s._timer = some t →
      s.enable req =
        { _timer := some { expiry := req.interval, waits := 1 }
          created := s.created + 1
          deleted := s.deleted + 1
          aborted := s.aborted + t.waits
          handled := s.handled } ∧
      (s.enable req).armed = 1) := by
  constructor
  · intro req ops s hs
    exact BusTimeout.run_armed ops _ s (BusTimeout.construct_armed req) hs
  · intro s t req ht
    constructor
    · simp [BusTimeout.enable, BusTimeout.disable, ht, DeadlineTimer.async_wait]
    · simp [BusTimeout.armed, BusTimeout.enable_timer]

theorem timer_at_most_one_armed_wait_witness :
    (BusTimeout.run
        [TimeoutOp.call (TimeoutCall.enable { enabled := true, interval := 50 }),
          TimeoutOp.complete ErrorCode.success [] { enabled := true, interval := 20 },
          TimeoutOp.complete ErrorCode.operation_aborted [] { enabled := true, interval := 20 },
          TimeoutOp.call (TimeoutCall.toggle { enabled := true, interval := 30 })]
        (BusTimeout.construct { enabled := true, interval := 50 }) =
      some { _timer := some { expiry := 30, waits := 1 }, created := 3, deleted := 2,
             aborted := 1, handled := 1 }) ∧
    BusTimeout.armed
        { _timer := some { expiry := 30, waits := 1 }, created := 3, deleted := 2,
          aborted := 1, handled := 1 } ≤ 1 ∧
    BusTimeout.armed (BusTimeout.enable { enabled := true, interval := 7 }
      (BusTimeout.construct { enabled := true, interval := 50 })) = 1 :=
  ⟨by decide,
    timer_at_most_one_armed_wait.1 { enabled := true, interval := 50 }
      [TimeoutOp.call (TimeoutCall.enable { enabled := true, interval := 50 }),
        TimeoutOp.complete ErrorCode.success [] { enabled := true, interval := 20 },
        TimeoutOp.complete ErrorCode.operation_aborted [] { enabled := true, interval := 20 },
        TimeoutOp.call (TimeoutCall.toggle { enabled := true, interval := 30 })]
      { _timer := some { expiry := 30, waits := 1 }, created := 3, deleted := 2,
        aborted := 1, handled := 1 } (by decide),
    (timer_at_most_one_armed_wait.2 (BusTimeout.construct { enabled := true, interval := 50 })
      { expiry := 50, waits := 1 } { enabled := true, interval := 7 } (by decide)).2⟩

/-- C2: a completion handler invoked with the outcome `operation_aborted` returns the proxy
exactly as it found it, for the timeout proxy and for the watch proxy with any direction tag:
no call of the handler of the bus library, no new wait, no question to the dispatcher. -/
theorem cancelled_completion_is_ignored :
    (∀ (s : BusTimeout) (h : List TimeoutCall) (req : TimeoutRequest),
      s.callback ErrorCode.operation_aborted h req = some s) ∧
    (∀ (s : BusWatch) (flag : Nat) (h : List WatchCall) (pending : Bool),
      s.callback ErrorCode.operation_aborted flag h pending = some s) := by
  constructor
  · intro s h req
    simp [BusTimeout.callback]
  · intro s flag h pending
    simp [BusWatch.callback, ErrorCode.failed]

/-- C8, refuted as stated: an armed timeout proxy whose wait fires, and whose
`Timeout::handle()` disables the proxy before it returns, arms no new wait: the completion
handler reaches line 87 with `_timer` NULL and has no defined result. -/
theorem timer_fire_with_disarming_handler :
    (BusTimeout.construct { enabled := true, interval := 50 })._timer =
      some { expiry := 50, waits := 1 } ∧
    BusTimeout.step (BusTimeout.construct { enabled := true, interval := 50 })
      (TimeoutOp.complete ErrorCode.success [TimeoutCall.disable]
        { enabled := true, interval := 20 }) = none := by
  decide

/-- C8, amended: when a completion that is not a cancellation reaches a timeout proxy that is
still armed when `Timeout::handle()` returns, the handler calls `Timeout::handle()` exactly
once and then leaves exactly one armed wait, whose delay is the interval the request reports
after that call, whatever delay the timer had before. -/
theorem timer_fire_rearms_current_interval (s : BusTimeout) (t : DeadlineTimer)
    (ec : ErrorCode) (h : List TimeoutCall) (req : TimeoutRequest)
    (hec : ec ≠ ErrorCode.operation_aborted)
    (harmed : (Timeout.handle h s)._timer = some t) :
    ∃ s1, s.callback ec h req = some s1 ∧
      s1.handled = s.handled + 1 ∧
      s1._timer = some { expiry := req.interval, waits := 1 } ∧
      s1.armed = 1 ∧
      s1.aborted = (Timeout.handle h s).aborted + t.waits ∧
      s1.created = (Timeout.handle h s).created ∧
      s1.deleted = (Timeout.handle h s).deleted := by
  refine ⟨{ Timeout.handle h s with
      _timer := some { expiry := req.interval, waits := 1 }
      aborted := (Timeout.handle h s).aborted + t.waits }, ?_, ?_, rfl, rfl, rfl, rfl, rfl⟩
  · simp [BusTimeout.callback, hec, harmed, DeadlineTimer.expires_from_now,
      DeadlineTimer.async_wait]
  · exact Timeout.handle_counts_once h s

theorem timer_fire_rearms_current_interval_witness :
    ∃ s1, BusTimeout.callback ErrorCode.success [] { enabled := true, interval := 20 }
        { _timer := some { expiry := 50, waits := 0 }, created := 1, deleted := 0,
          aborted := 0, handled := 0 } = some s1 ∧
      s1.handled = 0 + 1 ∧
      s1._timer = some { expiry := 20, waits := 1 } ∧
      s1.armed = 1 ∧
      s1.aborted = 0 + 0 ∧
      s1.created = 1 ∧
      s1.deleted = 0 :=
  timer_fire_rearms_current_interval
    { _timer := some { expiry := 50, waits := 0 }, created := 1, deleted := 0,
      aborted := 0, handled := 0 }
    { expiry := 50, waits := 0 } ErrorCode.success [] { enabled := true, interval := 20 }
    (by decide) (by decide)

/-! ## The watch proxy: what the handler reports -/

/-- C3, refuted as stated: an armed watch proxy with interest readable and error whose
read-direction wait completes with a failure, and whose `Watch::handle` disables the proxy
before it returns, arms no new wait: the completion handler reaches line 153 with `_wch` NULL
and has no defined result. -/
theorem watch_failure_with_disarming_handler :
    (BusWatch.construct { enabled := true, flags := 5, descriptor := 3 })._wch =
      some { fd := 3, waits := [{ dir := Direction.read, flag := 5 }] } ∧
    BusWatch.step (BusWatch.construct { enabled := true, flags := 5, descriptor := 3 })
      (WatchOp.complete (ErrorCode.failure 9) 0 [WatchCall.disable] false) = none := by
  decide

/-- C3, amended: when a completion with a failure that is not a cancellation, and with a
direction tag that contains the error bit, reaches a watch proxy whose registration is still
there when `Watch::handle` returns, the handler calls `Watch::handle` exactly once, with the
error flag alone, and then submits a new read-direction wait bound to the same tag on the
registration (and a write-direction wait bound to it too if the tag contains writable). -/
theorem watch_failure_reports_error_and_rearms (s : BusWatch) (d : StreamDescriptor)
    (code flag : Nat) (h : List WatchCall) (pending : Bool)
    (hflag : flag &&& DBUS_WATCH_ERROR ≠ 0)
    (harmed : (Watch.handle DBUS_WATCH_ERROR h s)._wch = some d) :
    ∃ s1 d1, s.callback (ErrorCode.failure code) flag h pending = some s1 ∧
      s1.handled = s.handled ++ [DBUS_WATCH_ERROR] ∧
      s1._wch = some d1 ∧
      d1.fd = d.fd ∧
      d1.waits = d.waits ++ [{ dir := Direction.read, flag := flag }] ++
        (if flag &&& DBUS_WATCH_WRITABLE ≠ 0 then [{ dir := Direction.write, flag := flag }]
          else []) := by
  have hread := error_bit_in_read_interest flag hflag
  have hnotify : s.notify (ErrorCode.failure code) flag h = Watch.handle DBUS_WATCH_ERROR h s := by
    simp [BusWatch.notify, ErrorCode.failed, hflag]
  have hhandled := Watch.handle_handled DBUS_WATCH_ERROR h s
  by_cases hw : flag &&& DBUS_WATCH_WRITABLE ≠ 0
  · refine ⟨BusWatch.drain pending { Watch.handle DBUS_WATCH_ERROR h s with
        _wch := some { fd := d.fd, waits := d.waits ++
          [{ dir := Direction.read, flag := flag }] ++
          [{ dir := Direction.write, flag := flag }] } }, _, ?_, ?_,
        BusWatch.drain_wch _ _, rfl, ?_⟩
    · simp [BusWatch.callback, ErrorCode.failed, hnotify, BusWatch.rearm, BusWatch.deref,
        hread, hw, harmed, StreamDescriptor.async_read_some, StreamDescriptor.async_write_some]
    · rw [BusWatch.drain_handled]
      exact hhandled
    · rw [if_pos hw]
  · refine ⟨BusWatch.drain pending { Watch.handle DBUS_WATCH_ERROR h s with
        _wch := some { fd := d.fd, waits := d.waits ++
          [{ dir := Direction.read, flag := flag }] } }, _, ?_, ?_,
        BusWatch.drain_wch _ _, rfl, ?_⟩
    · simp [BusWatch.callback, ErrorCode.failed, hnotify, BusWatch.rearm, BusWatch.deref,
        hread, hw, harmed, StreamDescriptor.async_read_some]
    · rw [BusWatch.drain_handled]
      exact hhandled
    · rw [if_neg hw, List.append_nil]

theorem watch_failure_reports_error_and_rearms_witness :
    ∃ s1 d1, BusWatch.callback (ErrorCode.failure 9) 5 [] false BusWatch.fired = some s1 ∧
      s1.handled = BusWatch.fired.handled ++ [DBUS_WATCH_ERROR] ∧
      s1._wch = some d1 ∧
      d1.fd = 3 ∧
      d1.waits = [] ++ [{ dir := Direction.read, flag := 5 }] ++
        (if 5 &&& DBUS_WATCH_WRITABLE ≠ 0 then [{ dir := Direction.write, flag := 5 }]
          else []) :=
  watch_failure_reports_error_and_rearms BusWatch.fired { fd := 3, waits := [] } 9 5 [] false
    (by decide) (by decide)

/-- C4, refuted as stated: a failure that is not a cancellation, delivered for the
write-direction wait of a watch with interest writable (a tag without the error bit), makes no
call of `Watch::handle` at all; the wait is submitted again and the dispatcher is asked. -/
theorem watch_failure_without_error_bit_not_reported :
    BusWatch.step
        (BusWatch.construct { enabled := true, flags := DBUS_WATCH_WRITABLE, descriptor := 3 })
        (WatchOp.complete (ErrorCode.failure 9) 0 [] false) =
      some { _wch := some { fd := 3, waits := [{ dir := Direction.write, flag := 2 }] },
             created := 1, deleted := 0, aborted := [], handled := [], polled := 1,
             dispatched := 0 } := by
  decide

/-- C4, amended: for a successful completion with tag `t` the handler calls `Watch::handle`
exactly once, with `t` without the error bit (bit 2 cleared, every other bit kept); for a
failure that is not a cancellation and whose tag lacks the error bit it makes no call of
`Watch::handle`, and on a proxy with a registration it does nothing but submit the waits the
tag names again, bound to the same tag, and ask the dispatcher; the rest of the completion
handler adds no call of `Watch::handle`. -/
theorem watch_handler_flags :
    (∀ (s : BusWatch) (t : Nat) (h : List WatchCall),
      (s.notify ErrorCode.success t h).handled = s.handled ++ [t &&& bitNot DBUS_WATCH_ERROR]) ∧
    (∀ (t i : Nat), t < 2 ^ 32 →
      (t &&& bitNot DBUS_WATCH_ERROR).testBit i = (t.testBit i && decide (i ≠ 2))) ∧
    (∀ (s : BusWatch) (code t : Nat) (h : List WatchCall), t &&& DBUS_WATCH_ERROR = 0 →
      s.notify (ErrorCode.failure code) t h = s) ∧
    (∀ (s s1 : BusWatch) (ec : ErrorCode) (t : Nat) (h : List WatchCall) (pending : Bool),
      ec ≠ ErrorCode.operation_aborted → s.callback ec t h pending = some s1 →
      s1.handled = (s.notify ec t h).handled) ∧
    (∀ (s : BusWatch) (d : StreamDescriptor) (code t : Nat) (h : List WatchCall)
        (pending : Bool),
      t &&& DBUS_WATCH_ERROR = 0 → s._wch = some d →
      s.callback (ErrorCode.failure code) t h pending =
        some (BusWatch.drain pending { s with
          _wch := some { d with
            waits := d.waits ++
              (if t &&& (DBUS_WATCH_READABLE ||| DBUS_WATCH_ERROR) ≠ 0 then
                [{ dir := Direction.read, flag := t }] else []) ++
              (if t &&& DBUS_WATCH_WRITABLE ≠ 0 then
                [{ dir := Direction.write, flag := t }] else []) } })) := by
  refine ⟨?_, ?_, ?_, ?_, ?_⟩
  · intro s t h
    simp [BusWatch.notify, ErrorCode.failed, Watch.handle_handled]
  · intro t i ht
    exact clear_error_bit t ht i
  · intro s code t h ht
    simp [BusWatch.notify, ErrorCode.failed, ht]
  · intro s s1 ec t h pending hec hs
    unfold BusWatch.callback at hs
    have hna : ¬ (ec.failed = true ∧ ec = ErrorCode.operation_aborted) := fun hx => hec hx.2
    rw [if_neg hna] at hs
    cases hre : (s.notify ec t h).rearm t with
    | none => simp [hre] at hs
    | some s2 =>
      simp only [hre, Option.some.injEq] at hs
      rw [← hs, BusWatch.drain_handled]
      exact BusWatch.rearm_handled t _ s2 hre
  · intro s d code t h pending ht hd
    have hnotify : s.notify (ErrorCode.failure code) t h = s := by
      simp [BusWatch.notify, ErrorCode.failed, ht]
    by_cases hr : t &&& (DBUS_WATCH_READABLE ||| DBUS_WATCH_ERROR) ≠ 0
    · by_cases hw : t &&& DBUS_WATCH_WRITABLE ≠ 0
      · simp [BusWatch.callback, ErrorCode.failed, hnotify, BusWatch.rearm, BusWatch.deref,
          hr, hw, hd, StreamDescriptor.async_read_some, StreamDescriptor.async_write_some]
      · simp [BusWatch.callback, ErrorCode.failed, hnotify, BusWatch.rearm, BusWatch.deref,
          hr, hw, hd, StreamDescriptor.async_read_some]
    · by_cases hw : t &&& DBUS_WATCH_WRITABLE ≠ 0
      · simp [BusWatch.callback, ErrorCode.failed, hnotify, BusWatch.rearm, BusWatch.deref,
          hr, hw, hd, StreamDescriptor.async_write_some]
      · simp [BusWatch.callback, ErrorCode.failed, hnotify, BusWatch.rearm, BusWatch.deref,
          hr, hw, hd]
        congr 1
        cases s
        simp only at hd
        subst hd
        rfl

theorem watch_handler_flags_witness :
    (5 &&& bitNot DBUS_WATCH_ERROR).testBit 2 = ((5 : Nat).testBit 2 && decide (2 ≠ 2)) ∧
    BusWatch.notify (ErrorCode.failure 9) 2 [] BusWatch.fired = BusWatch.fired ∧
    ({ _wch := some { fd := 3, waits := [{ dir := Direction.read, flag := 5 }] },
       created := 1, deleted := 0, aborted := [], handled := [1], polled := 1,
       dispatched := 1 } : BusWatch).handled =
      (BusWatch.notify ErrorCode.success 5 [] BusWatch.fired).handled ∧
    BusWatch.callback (ErrorCode.failure 9) 2 [] false BusWatch.fired =
      some { _wch := some { fd := 3, waits := [{ dir := Direction.write, flag := 2 }] },
             created := 1, deleted := 0, aborted := [], handled := [], polled := 1,
             dispatched := 0 } :=
  ⟨watch_handler_flags.2.1 5 2 (by decide),
    watch_handler_flags.2.2.1 BusWatch.fired 9 2 [] (by decide),
    watch_handler_flags.2.2.2.1 BusWatch.fired
      { _wch := some { fd := 3, waits := [{ dir := Direction.read, flag := 5 }] },
        created := 1, deleted := 0, aborted := [], handled := [1], polled := 1,
        dispatched := 1 }
      ErrorCode.success 5 [] true (by decide) (by decide),
    watch_handler_flags.2.2.2.2 BusWatch.fired { fd := 3, waits := [] } 9 2 [] false
      (by decide) rfl⟩

/-- C5, evaluated on the code: when the handler of the bus library disarms the proxy it is
called for, with `disable()` or with `toggle()` while the request is not enabled, the
completion handler goes on to use the handle that is now NULL, at line 87 for the timeout
proxy and at line 153 or 157 for the watch proxy, and has no defined result. -/
theorem reentrant_disarm_uses_null_handle :
    BusTimeout.step (BusTimeout.construct { enabled := true, interval := 50 })
      (TimeoutOp.complete ErrorCode.success [TimeoutCall.disable]
        { enabled := true, interval := 50 }) = none ∧
    BusTimeout.step (BusTimeout.construct { enabled := true, interval := 50 })
      (TimeoutOp.complete ErrorCode.success
        [TimeoutCall.toggle { enabled := false, interval := 50 }]
        { enabled := false, interval := 50 }) = none ∧
    BusWatch.step (BusWatch.construct { enabled := true, flags := 1, descriptor := 3 })
      (WatchOp.complete ErrorCode.success 0 [WatchCall.disable] false) = none ∧
    BusWatch.step (BusWatch.construct { enabled := true, flags := 2, descriptor := 3 })
      (WatchOp.complete ErrorCode.success 0
        [WatchCall.toggle { enabled := false, flags := 2, descriptor := 3 }] false) = none := by
  decide

/-- C6: `disable()` followed by `enable()`, from any state of the watch proxy and for any
interest flags `f` the request has at the call, leaves a registration on the descriptor of the
request whose outstanding waits are exactly one read-direction wait tagged with the readable
and error part of `f` if that part is not empty, and one write-direction wait tagged writable
if `f` contains writable; every wait that was outstanding before has been cancelled. The same
registration results from `enable()` alone. -/
theorem watch_enable_arms_current_interest (s : BusWatch) (req : WatchRequest) :
    (s.disable.enable req)._wch =
      some { fd := req.descriptor, waits := expectedWaits req.flags } ∧
    (s.disable.enable req).aborted =
      s.aborted ++ (match s._wch with
        | none => []
        | some d => d.waits) ∧
    s.enable req = s.disable.enable req := by
  refine ⟨BusWatch.enable_wch req _, ?_, ?_⟩
  · cases hd : s._wch with
    | none => simp [BusWatch.enable, BusWatch.disable, hd]
    | some d => simp [BusWatch.enable, BusWatch.disable, hd]
  · cases hd : s._wch with
    | none => simp [BusWatch.enable, BusWatch.disable, hd]
    | some d => simp [BusWatch.enable, BusWatch.disable, hd]

/-! ## The watch proxy: which waits are outstanding -/

/-- C7: a watch proxy enabled while the interest flags of the request are readable only, and
then driven by any sequence of completions that are not cancellations, each handled and
re-armed by the completion handler, has only read-direction waits whose tag lacks the writable
bit; so every completion the reactor can deliver next carries a tag without writable. -/
theorem readable_only_never_writable (req : WatchRequest) (s0 s : BusWatch)
    (ops : List WatchOp) (hreq : req.flags = DBUS_WATCH_READABLE)
    (hops : ∀ op ∈ ops, op.firing DBUS_WATCH_READABLE)
    (hrun : BusWatch.run ops (s0.enable req) = some s) :
    (∀ d, s._wch = some d → ∀ w ∈ d.waits,
      w.dir = Direction.read ∧ w.flag &&& DBUS_WATCH_WRITABLE = 0) ∧
    (∀ ec i w s1, ec ≠ ErrorCode.operation_aborted → s.retire ec i = some (w, s1) →
      w.flag &&& DBUS_WATCH_WRITABLE = 0) := by
  have hstart : (s0.enable req).readOnly := by
    apply BusWatch.readOnly_of_armedFor
    intro d hd
    rw [BusWatch.enable_wch, Option.some.injEq] at hd
    rw [← hd, hreq]
  have hs : s.readOnly := BusWatch.run_readOnly ops _ s hstart hops hrun
  constructor
  · intro d hd w hw
    rw [hs d hd w hw]
    exact ⟨rfl, by decide⟩
  · intro ec i w s1 hec hr
    rw [(BusWatch.retire_readOnly ec i s s1 w hs hec hr).2]
    decide

theorem readable_only_never_writable_witness :
    BusWatch.run
        [WatchOp.complete ErrorCode.success 0 [] false,
          WatchOp.complete (ErrorCode.failure 9) 0 [] false]
        (BusWatch.enable { enabled := true, flags := 1, descriptor := 3 } BusWatch.fired) =
      some { _wch := some { fd := 3, waits := [{ dir := Direction.read, flag := 1 }] },
             created := 2, deleted := 1, aborted := [], handled := [1], polled := 2,
             dispatched := 0 } ∧
    (Wait.dir { dir := Direction.read, flag := 1 } = Direction.read ∧
      Wait.flag { dir := Direction.read, flag := 1 } &&& DBUS_WATCH_WRITABLE = 0) :=
  ⟨by decide,
    (readable_only_never_writable { enabled := true, flags := 1, descriptor := 3 }
      BusWatch.fired
      { _wch := some { fd := 3, waits := [{ dir := Direction.read, flag := 1 }] },
        created := 2, deleted := 1, aborted := [], handled := [1], polled := 2,
        dispatched := 0 }
      [WatchOp.complete ErrorCode.success 0 [] false,
        WatchOp.complete (ErrorCode.failure 9) 0 [] false]
      (by decide)
      (by
        intro op hop
        simp only [List.mem_cons, List.mem_singleton, List.not_mem_nil, or_false] at hop
        rcases hop with rfl | rfl <;>
          exact ⟨by decide, fun c hc => absurd hc (List.not_mem_nil c)⟩)
      (by decide)).1
      { fd := 3, waits := [{ dir := Direction.read, flag := 1 }] } rfl
      { dir := Direction.read, flag := 1 } (List.mem_singleton.2 rfl)⟩

/-- C9, refuted as stated: a watch proxy constructed for an enabled request whose interest
flags are empty holds a registration with no outstanding wait. -/
theorem watch_registration_without_wait :
    (BusWatch.construct { enabled := true, flags := 0, descriptor := 3 })._wch =
      some { fd := 3, waits := [] } := by
  decide

/-- C9, amended: after construction and any sequence of `enable`, `disable` and `toggle`
calls with the interest flags `f` of the request, a registration that is there holds exactly
one read-direction wait tagged with the readable and error part of `f` if that part is not
empty and one write-direction wait tagged writable if `f` contains writable: at most two
waits, and at least one when `f` contains readable, writable or error. -/
theorem watch_armed_waits_match_interest (req : WatchRequest) (cs : List WatchCall)
    (d : StreamDescriptor) (hcs : WatchCall.allFlags req.flags cs)
    (hd : (cs.foldl BusWatch.call (BusWatch.construct req))._wch = some d) :
    d.waits = expectedWaits req.flags ∧
    d.waits.length ≤ 2 ∧
    (req.flags &&& (DBUS_WATCH_READABLE ||| DBUS_WATCH_WRITABLE ||| DBUS_WATCH_ERROR) ≠ 0 →
      1 ≤ d.waits.length) ∧
    (∀ w ∈ d.waits,
      (w.dir = Direction.read ∧
          w.flag = req.flags &&& (DBUS_WATCH_READABLE ||| DBUS_WATCH_ERROR) ∧ w.flag ≠ 0) ∨
        (w.dir = Direction.write ∧ w.flag = DBUS_WATCH_WRITABLE ∧
          req.flags &&& DBUS_WATCH_WRITABLE ≠ 0)) := by
  have hw : d.waits = expectedWaits req.flags :=
    BusWatch.calls_armedFor req.flags cs _ (BusWatch.construct_armedFor req) hcs d hd
  refine ⟨hw, ?_, ?_, ?_⟩
  · rw [hw]
    exact expectedWaits_length_le req.flags
  · intro hf
    rw [hw]
    apply expectedWaits_length_pos
    have h7 : DBUS_WATCH_READABLE ||| DBUS_WATCH_WRITABLE ||| DBUS_WATCH_ERROR = 7 := by decide
    rwa [h7] at hf
  · intro w hmem
    rw [hw] at hmem
    exact expectedWaits_tagged req.flags w hmem

theorem watch_armed_waits_match_interest_witness :
    ([{ dir := Direction.read, flag := 5 }, { dir := Direction.write, flag := 2 }] : List Wait) =
      expectedWaits 7 ∧
    ([{ dir := Direction.read, flag := 5 }, { dir := Direction.write, flag := 2 }] :
      List Wait).length ≤ 2 ∧
    1 ≤ ([{ dir := Direction.read, flag := 5 }, { dir := Direction.write, flag := 2 }] :
      List Wait).length :=
  have hthm := watch_armed_waits_match_interest
    { enabled := false, flags := 7, descriptor := 3 }
    [WatchCall.toggle { enabled := true, flags := 7, descriptor := 3 }, WatchCall.disable,
      WatchCall.enable { enabled := false, flags := 7, descriptor := 3 }]
    { fd := 3, waits :=
      [{ dir := Direction.read, flag := 5 }, { dir := Direction.write, flag := 2 }] }
    (by
      intro c hc r hr
      simp only [List.mem_cons, List.mem_singleton, List.not_mem_nil, or_false] at hc
      rcases hc with rfl | rfl | rfl <;> simp [WatchCall.request] at hr <;> rw [← hr])
    (by decide)
  ⟨hthm.1, hthm.2.1, hthm.2.2.1 (by decide)⟩

/-! ## The dispatcher -/

/-- C10: `attach` on a dispatcher without context and with a context that is not NULL
returns and stores exactly that context; `attach` fails an assertion and leaves the dispatcher
as it was if a context is already stored or the given one is NULL; so after any sequence of
`attach` calls on a new dispatcher the stored context is the first context of the sequence
that is not NULL, or still NULL if there is none, and a stored context is never replaced. -/
theorem attach_is_set_once :
    (∀ (d : BusDispatcher) (ctx : Nat), d._ctx = none →
      d.attach (some ctx) = (Outcome.returned, { _ctx := some ctx })) ∧
    (∀ (d : BusDispatcher) (ctx : Option Nat), d._ctx ≠ none ∨ ctx = none →
      d.attach ctx = (Outcome.assertion_failed, d)) ∧
    (∀ (ctxs : List (Option Nat)),
      (BusDispatcher.attachAll ctxs BusDispatcher.construct)._ctx =
        (ctxs.filterMap id).head?) ∧
    (∀ (ctxs : List (Option Nat)) (d : BusDispatcher) (c : Nat), d._ctx = some c →
      (BusDispatcher.attachAll ctxs d)._ctx = some c) := by
  refine ⟨?_, ?_, ?_, ?_⟩
  · intro d ctx hd
    simp [BusDispatcher.attach, hd]
  · intro d ctx hor
    rcases hor with hd | hc
    · simp [BusDispatcher.attach, hd]
    · by_cases hd : d._ctx = none
      · simp [BusDispatcher.attach, hd, hc]
      · simp [BusDispatcher.attach, hd]
  · intro ctxs
    exact BusDispatcher.attachAll_first ctxs _ rfl
  · intro ctxs d c hd
    exact BusDispatcher.attachAll_keeps ctxs d c hd

theorem attach_is_set_once_witness :
    BusDispatcher.attach (some 7) BusDispatcher.construct =
      (Outcome.returned, { _ctx := some 7 }) ∧
    BusDispatcher.attach (some 8) { _ctx := some 7 } =
      (Outcome.assertion_failed, { _ctx := some 7 }) ∧
    BusDispatcher.attach none BusDispatcher.construct =
      (Outcome.assertion_failed, BusDispatcher.construct) ∧
    (BusDispatcher.attachAll [none, some 7, some 8, none] BusDispatcher.construct)._ctx =
      ([none, some 7, some 8, none].filterMap id).head? ∧
    (BusDispatcher.attachAll [some 8, none] { _ctx := some 7 })._ctx = some 7 :=
  ⟨attach_is_set_once.1 BusDispatcher.construct 7 rfl,
    attach_is_set_once.2.1 { _ctx := some 7 } (some 8) (Or.inl (by decide)),
    attach_is_set_once.2.1 BusDispatcher.construct none (Or.inr rfl),
    attach_is_set_once.2.2.1 [none, some 7, some 8, none],
    attach_is_set_once.2.2.2 [some 8, none] { _ctx := some 7 } 7 rfl⟩

end DBus
